import Mathlib

/-!
Verification model of the sales-call-analyser repository.

The pipeline under study lives in `python-lib/nbm_analysis/utils/json_utils.py`,
`llm_client.py`, `llm_client_mock.py`, `file_processor.py` and
`sales-call-analyzer/app.py`.  Strings are modelled as `List Char`; the external
model call is an oracle (`LLMOutcome`); JSON values as produced by `json.loads`
are modelled by the inductive `JValue`.
-/

/-- Whitespace class of the regex `\s` and of Python `str.strip()` restricted to
the ASCII range (space, tab, newline, carriage return, vertical tab, form feed). -/
def isSpaceRe (c : Char) : Bool :=
  if c = ' ' then true
  else if c = Char.ofNat 9 then true
  else if c = Char.ofNat 10 then true
  else if c = Char.ofNat 13 then true
  else if c = Char.ofNat 11 then true
  else if c = Char.ofNat 12 then true
  else false

/-- Whitespace skipped by the JSON parser of `json.loads` (space, tab, newline, CR). -/
def isJsonWs (c : Char) : Bool :=
  if c = ' ' then true
  else if c = Char.ofNat 9 then true
  else if c = Char.ofNat 10 then true
  else if c = Char.ofNat 13 then true
  else false

def skipJsonWs (l : List Char) : List Char := l.dropWhile isJsonWs

/-- Python `str.strip()`: remove whitespace from both ends. -/
def pyStrip (l : List Char) : List Char :=
  ((l.dropWhile isSpaceRe).reverse.dropWhile isSpaceRe).reverse

/-- Boolean prefix test on character lists (the literal parts of the regexes). -/
def isPre : List Char → List Char → Bool
  | [], _ => true
  | _ :: _, [] => false
  | a :: as, b :: bs => if a = b then isPre as bs else false

/-- Python substring test, `needle in haystack` for strings. -/
def isInfixB : List Char → List Char → Bool
  | p, [] => isPre p []
  | p, c :: rest => if isPre p (c :: rest) then true else isInfixB p rest

/-- Does the list contain the character? (Python `c in s`.) -/
def hasChar : List Char → Char → Bool
  | [], _ => false
  | d :: rest, c => if d = c then true else hasChar rest c

/-- Membership of a string in a list of strings (Python `x in {…}`). -/
def memList : List Char → List (List Char) → Bool
  | _, [] => false
  | x, y :: rest => if y = x then true else memList x rest

/-- JSON values as produced by `json.loads`.  Numbers are kept as their source
lexeme (their numeric interpretation is never needed by the code under study);
object fields are kept in Python-dict insertion order. -/
inductive JValue where
  | null : JValue
  | bool (b : Bool) : JValue
  | num (lexeme : List Char) : JValue
  | str (s : List Char) : JValue
  | arr (elems : List JValue) : JValue
  | obj (fields : List (List Char × JValue)) : JValue

/-- Python dict insertion: updating an existing key keeps its position and
replaces its value, a new key is appended at the end. -/
def insertPy : List (List Char × JValue) → List Char → JValue → List (List Char × JValue)
  | [], key, v => [(key, v)]
  | (k, w) :: rest, key, v =>
    if k = key then (k, v) :: rest else (k, w) :: insertPy rest key v

/-- First (and for parser-produced objects, only) binding of a key. -/
def lookupKey : List (List Char × JValue) → List Char → Option JValue
  | [], _ => none
  | (k, v) :: rest, key => if k = key then some v else lookupKey rest key

def containsKey : List (List Char × JValue) → List Char → Bool
  | [], _ => false
  | (k, _) :: rest, key => if k = key then true else containsKey rest key

def JValue.lookup : JValue → List Char → Option JValue
  | .obj fs, key => lookupKey fs key
  | _, _ => none

def JValue.isObjB : JValue → Bool
  | .obj _ => true
  | _ => false

def JValue.keyList : JValue → List (List Char)
  | .obj fs => fs.map (fun p => p.1)
  | _ => []

def JValue.arrLen : JValue → Nat
  | .arr es => es.length
  | _ => 0

/-- JSON string escapes other than `\uXXXX`. -/
def escMap (c : Char) : Option Char :=
  if c = Char.ofNat 34 then some (Char.ofNat 34)
  else if c = Char.ofNat 92 then some (Char.ofNat 92)
  else if c = '/' then some '/'
  else if c = 'b' then some (Char.ofNat 8)
  else if c = 'f' then some (Char.ofNat 12)
  else if c = 'n' then some (Char.ofNat 10)
  else if c = 'r' then some (Char.ofNat 13)
  else if c = 't' then some (Char.ofNat 9)
  else none

def isDigitC (c : Char) : Bool := if '0' ≤ c then (if c ≤ '9' then true else false) else false

def isHexC (c : Char) : Bool :=
  if isDigitC c then true
  else if 'a' ≤ c then (if c ≤ 'f' then true else false)
  else if 'A' ≤ c then (if c ≤ 'F' then true else false)
  else false

def hexVal (c : Char) : Nat :=
  if isDigitC c then c.toNat - 48
  else if 'a' ≤ c then c.toNat - 87
  else c.toNat - 55

/-- Body of a JSON string literal, after the opening quote, decoding escapes;
mirrors the strict `json` scanner (unescaped control characters are rejected).
The fine points of surrogate `\u` escapes are abstracted by `Char.ofNat`. -/
def parseStringBody : Nat → List Char → Option (List Char × List Char)
  | 0, _ => none
  | _, [] => none
  | fuel + 1, c :: rest =>
    if c = Char.ofNat 34 then some ([], rest)
    else if c = Char.ofNat 92 then
      match rest with
      | 'u' :: h1 :: h2 :: h3 :: h4 :: rest2 =>
        if isHexC h1 then
          if isHexC h2 then
            if isHexC h3 then
              if isHexC h4 then
                match parseStringBody fuel rest2 with
                | some (s, r) =>
                  some (Char.ofNat (4096 * hexVal h1 + 256 * hexVal h2 +
                    16 * hexVal h3 + hexVal h4) :: s, r)
                | none => none
              else none
            else none
          else none
        else none
      | e :: rest2 =>
        match escMap e with
        | some d =>
          match parseStringBody fuel rest2 with
          | some (s, r) => some (d :: s, r)
          | none => none
        | none => none
      | [] => none
    else if c.toNat < 32 then none
    else
      match parseStringBody fuel rest with
      | some (s, r) => some (c :: s, r)
      | none => none

/-- Integer part of the scanner's number regex: `0|[1-9][0-9]*`. -/
def parseIntPart (s : List Char) : Option (List Char × List Char) :=
  match s with
  | [] => none
  | c :: rest =>
    if c = '0' then some ([c], rest)
    else if isDigitC c then some (c :: rest.takeWhile isDigitC, rest.dropWhile isDigitC)
    else none

/-- Fraction part `(\.[0-9]+)?` of the scanner's number regex. -/
def parseFracPart (s : List Char) : List Char × List Char :=
  match s with
  | '.' :: rest =>
    match rest.takeWhile isDigitC with
    | [] => ([], s)
    | ds => ('.' :: ds, rest.dropWhile isDigitC)
  | _ => ([], s)

/-- Exponent part `([eE][-+]?[0-9]+)?` of the scanner's number regex. -/
def parseExpPart (s : List Char) : List Char × List Char :=
  match s with
  | [] => ([], s)
  | e :: rest =>
    if if e = 'e' then true else (if e = 'E' then true else false) then
      let signAndRest : List Char × List Char :=
        match rest with
        | '+' :: r => (['+'], r)
        | '-' :: r => (['-'], r)
        | _ => ([], rest)
      match signAndRest.2.takeWhile isDigitC with
      | [] => ([], s)
      | ds => (e :: signAndRest.1 ++ ds, signAndRest.2.dropWhile isDigitC)
    else ([], s)

/-- The number lexeme matched by the `json` scanner regex
`-?(0|[1-9][0-9]*)(\.[0-9]+)?([eE][-+]?[0-9]+)?`. -/
def parseNumber (s : List Char) : Option (List Char × List Char) :=
  let negAndRest : List Char × List Char :=
    match s with
    | '-' :: r => (['-'], r)
    | _ => ([], s)
  match parseIntPart negAndRest.2 with
  | none => none
  | some (ip, r1) =>
    let fr := parseFracPart r1
    let ex := parseExpPart fr.2
    some (negAndRest.1 ++ ip ++ fr.1 ++ ex.1, ex.2)

def infinityLex : List Char := ['I', 'n', 'f', 'i', 'n', 'i', 't', 'y']

mutual

/-- One JSON value at the head of the input; mirrors the grammar accepted by
`json.loads`, including the Python extensions `NaN`, `Infinity`, `-Infinity`. -/
def parseVal : Nat → List Char → Option (JValue × List Char)
  | 0, _ => none
  | fuel + 1, s =>
    match s with
    | 't' :: 'r' :: 'u' :: 'e' :: r => some (.bool true, r)
    | 'f' :: 'a' :: 'l' :: 's' :: 'e' :: r => some (.bool false, r)
    | 'n' :: 'u' :: 'l' :: 'l' :: r => some (.null, r)
    | 'N' :: 'a' :: 'N' :: r => some (.num (['N', 'a', 'N']), r)
    | 'I' :: 'n' :: 'f' :: 'i' :: 'n' :: 'i' :: 't' :: 'y' :: r => some (.num infinityLex, r)
    | '-' :: 'I' :: 'n' :: 'f' :: 'i' :: 'n' :: 'i' :: 't' :: 'y' :: r =>
      some (.num ('-' :: infinityLex), r)
    | '{' :: r =>
      match skipJsonWs r with
      | '}' :: r2 => some (.obj [], r2)
      | r2 => parseMembers fuel r2 []
    | '[' :: r =>
      match skipJsonWs r with
      | ']' :: r2 => some (.arr [], r2)
      | r2 => parseArrItems fuel r2 []
    | c :: r =>
      if c = Char.ofNat 34 then
        match parseStringBody (fuel + 1) r with
        | some (cs, rest) => some (.str cs, rest)
        | none => none
      else
        match parseNumber (c :: r) with
        | some (lex, rest) => some (.num lex, rest)
        | none => none
    | [] => none

/-- Members of a JSON object, from the first key onwards (whitespace before the
key already skipped). -/
def parseMembers : Nat → List Char → List (List Char × JValue) →
    Option (JValue × List Char)
  | 0, _, _ => none
  | fuel + 1, s, acc =>
    match s with
    | c :: r =>
      if c = Char.ofNat 34 then
        match parseStringBody (fuel + 1) r with
        | none => none
        | some (key, r1) =>
          match skipJsonWs r1 with
          | ':' :: r2 =>
            match parseVal fuel (skipJsonWs r2) with
            | none => none
            | some (v, r3) =>
              match skipJsonWs r3 with
              | ',' :: r4 => parseMembers fuel (skipJsonWs r4) (insertPy acc key v)
              | '}' :: r4 => some (.obj (insertPy acc key v), r4)
              | _ => none
          | _ => none
      else none
    | [] => none

/-- Items of a JSON array, from the first element onwards. -/
def parseArrItems : Nat → List Char → List JValue → Option (JValue × List Char)
  | 0, _, _ => none
  | fuel + 1, s, acc =>
    match parseVal fuel s with
    | none => none
    | some (v, r1) =>
      match skipJsonWs r1 with
      | ',' :: r2 => parseArrItems fuel (skipJsonWs r2) (acc ++ [v])
      | ']' :: r2 => some (.arr (acc ++ [v]), r2)
      | _ => none

end

/-- `json.loads`: parse one value surrounded by whitespace, requiring the whole
input to be consumed; `none` models a raised `json.JSONDecodeError`. -/
def jsonParse (s : List Char) : Option JValue :=
  match parseVal (4 * s.length + 16) (skipJsonWs s) with
  | some (v, rest) => if skipJsonWs rest = [] then some v else none
  | none => none

/-- Acceptance by the standard JSON parser. -/
def jsonValid (s : List Char) : Bool := (jsonParse s).isSome

/-- The backtick character. -/
def tick : Char := Char.ofNat 96

/-- The literal ``` delimiter of the fenced-block regex in `clean_json_response`. -/
def fenceMark : List Char := [tick, tick, tick]

/-- The optional literal `json` after the opening fence. -/
def jsonTag : List Char := ['j', 's', 'o', 'n']

/-- Longest prefix of the input ending with a closing brace that is followed,
after `\s*`, by a closing fence: the greedy `.*` of `(\{.*\})\s*` + fence in
`re.search(r'```(?:json)?\s*(\{.*\})\s*```', text, re.DOTALL)`. -/
def greedyBody : List Char → Option (List Char)
  | [] => none
  | c :: rest =>
    match greedyBody rest with
    | some p => some (c :: p)
    | none =>
      if c = '}' then
        if isPre fenceMark (rest.dropWhile isSpaceRe) then some [c] else none
      else none

/-- One attempt of the fenced-block regex at the head of the input, returning the
captured `(\{.*\})` group on success.  `(?:json)?` is greedy but can only
succeed by taking the literal when it is present (otherwise `\{` would have to
match the letter `j`), and `\s*` before `\{` commits to the whitespace run. -/
def fenceAttempt (t : List Char) : Option (List Char) :=
  if isPre fenceMark t then
    let t1 := t.drop 3
    let t2 := if isPre jsonTag t1 then t1.drop 4 else t1
    match t2.dropWhile isSpaceRe with
    | '{' :: r3 => greedyBody ('{' :: r3)
    | _ => none
  else none

/-- Leftmost-match search of the fenced-block regex (`re.search` tries every
start position left to right). -/
def fenceSearch : List Char → Option (List Char)
  | [] => none
  | c :: rest =>
    match fenceAttempt (c :: rest) with
    | some g => some g
    | none => fenceSearch rest

def takeToLastRBrace : List Char → Option (List Char)
  | [] => none
  | c :: rest =>
    match takeToLastRBrace rest with
    | some p => some (c :: p)
    | none => if c = '}' then some [c] else none

def notLBrace (c : Char) : Bool := if c = '{' then false else true

/-- `re.search(r'\{.*\}', text, re.DOTALL)`: leftmost match starts at the first
`{`, and the greedy `.*` extends to the last `}` after it. -/
def braceSearch (s : List Char) : Option (List Char) :=
  match s.dropWhile notLBrace with
  | [] => none
  | c :: rest =>
    match takeToLastRBrace rest with
    | some p => some (c :: p)
    | none => none

/-- Does the input start, after `\s*`, with `}` or `]`? -/
def closerAfterWs (l : List Char) : Bool :=
  match l.dropWhile isSpaceRe with
  | c :: _ => if c = '}' then true else (if c = ']' then true else false)
  | [] => false

/-- `re.sub(r',(\s*[}\]])', r'\1', text)`: every comma that is followed, after
whitespace only, by a closing brace or bracket is dropped; all other characters
are kept.  (The regex consumes the whitespace and the closer into group 1 and
re-emits them; since the skipped-over region contains no comma, the global
left-to-right substitution is exactly this per-character deletion.) -/
def removeTrailingCommas : List Char → List Char
  | [] => []
  | c :: rest =>
    if c = ',' then
      if closerAfterWs rest then removeTrailingCommas rest
      else c :: removeTrailingCommas rest
    else c :: removeTrailingCommas rest

/-- Is there any comma followed, after whitespace only, by a closing brace or
bracket?  (The condition under which `removeTrailingCommas` changes its input.) -/
def hasTrailingComma : List Char → Bool
  | [] => false
  | c :: rest =>
    if c = ',' then
      if closerAfterWs rest then true else hasTrailingComma rest
    else hasTrailingComma rest

/-- `clean_json_response` from `nbm_analysis/utils/json_utils.py` (the same
function appears verbatim in `sales-call-analyzer/app.py`): prefer the fenced
```json block's object, else the first brace-delimited span, then drop trailing
commas and strip outer whitespace. -/
def clean_json_response (s : List Char) : List Char :=
  let t :=
    match fenceSearch s with
    | some g => g
    | none =>
      match braceSearch s with
      | some b => b
      | none => s
  pyStrip (removeTrailingCommas t)

/-- Outcome of one `_create_completion` model call: the response text, or a
raised exception carrying `str(e)`. -/
inductive LLMOutcome where
  | ok (text : List Char) : LLMOutcome
  | exn (msg : List Char) : LLMOutcome

def errK : List Char := ("error").data
def evRegK : List Char := ("evidence_registry").data
def swK : List Char := ("sales_whys").data
def bcK : List Char := ("business_context").data
def meddicK : List Char := ("meddic").data
def dealK : List Char := ("deal_review").data

def salesWhysDims : List (List Char) :=
  [("why_anything").data, ("why_now").data, ("why_us").data]

def businessContextDims : List (List Char) :=
  [("corporate_objectives").data, ("domain_initiatives").data, ("domain_challenges").data]

def meddicDims : List (List Char) :=
  [("metrics").data, ("economic_buyer").data, ("decision_process").data,
   ("decision_criteria").data, ("implicated_pain").data, ("champion").data]

def tooLongMsg : List Char := ("Transcript too long").data
def tooShortMsg : List Char := ("Transcript too short").data
def tryAgainMsg : List Char := ("Analysis failed - please try again").data
def analysisFailedMsgOf (e : List Char) : List Char := ("Analysis failed: ").data ++ e
def dealTryAgainMsg : List Char := ("Deal review failed - please try again").data
def dealFailedMsgOf (e : List Char) : List Char := ("Deal review failed: ").data ++ e

/-- Stand-in for `str(e)` of the Python `TypeError`/`AttributeError` raised when
`in`, `[...]` or `.get` is applied to an unsuitable value inside the handlers;
the exact exception text is abstracted, only its presence matters. -/
def typeErrText : List Char := ("TypeError").data

/-- The error dictionary `{"evidence_registry": {}, "error": m}`. -/
def evFailure (m : List Char) : JValue := .obj [(evRegK, .obj []), (errK, .str m)]

/-- `SalesAnalysisLLM.create_evidence_registry` of `llm_client.py`.  Returns the
result value together with whether the model was called. -/
def create_evidence_registry (oracle : LLMOutcome) (transcript : List Char) :
    JValue × Bool :=
  if 50000 < transcript.length then (evFailure tooLongMsg, false)
  else if (pyStrip transcript).length < 50 then (evFailure tooShortMsg, false)
  else
    match oracle with
    | .exn m => (evFailure (analysisFailedMsgOf m), true)
    | .ok text =>
      match jsonParse (clean_json_response text) with
      | some v => (v, true)
      | none => (evFailure tryAgainMsg, true)

/-- Python `key in v` for the values a parsed JSON response can be; `.error`
models a raised `TypeError` (`in` on numbers, booleans or `None`). -/
def pyContains (v : JValue) (key : List Char) : Except Unit Bool :=
  match v with
  | .obj fs => .ok (containsKey fs key)
  | .str s => .ok (isInfixB key s)
  | .arr es => .ok (es.any (fun e =>
      match e with
      | .str s => if s = key then true else false
      | _ => false))
  | _ => .error ()

/-- Python `v[key]` with a string key; `.error` models `TypeError`/`KeyError`. -/
def pyGetItem (v : JValue) (key : List Char) : Except Unit JValue :=
  match v with
  | .obj fs =>
    match lookupKey fs key with
    | some w => .ok w
    | none => .error ()
  | _ => .error ()

/-- Python `v.get(key, {})`; `.error` models the `AttributeError` raised when
`v` is not a dict. -/
def pyGet (v : JValue) (key : List Char) : Except Unit JValue :=
  match v with
  | .obj fs => .ok ((lookupKey fs key).getD (.obj []))
  | _ => .error ()

/-- Python `v[key] = w` on the outer value; `.error` models `TypeError`. -/
def pySetItem (v : JValue) (key : List Char) (w : JValue) : Except Unit JValue :=
  match v with
  | .obj fs => .ok (.obj (insertPy fs key w))
  | _ => .error ()

/-- The OrderedDict comprehension `ordered[d] = inner.get(d, {})` over the fixed
dimension list. -/
def getDims (inner : JValue) : List (List Char) →
    Except Unit (List (List Char × JValue))
  | [] => .ok []
  | d :: ds =>
    match pyGet inner d with
    | .error _ => .error ()
    | .ok v =>
      match getDims inner ds with
      | .error _ => .error ()
      | .ok rest => .ok ((d, v) :: rest)

/-- The `if key in data: … data[key] = ordered` reordering block of
`create_analysis`. -/
def orderFramework (data : JValue) (key : List Char) (dims : List (List Char)) :
    Except Unit JValue :=
  match pyContains data key with
  | .error _ => .error ()
  | .ok false => .ok data
  | .ok true =>
    match pyGetItem data key with
    | .error _ => .error ()
    | .ok inner =>
      match getDims inner dims with
      | .error _ => .error ()
      | .ok pairs => pySetItem data key (.obj pairs)

/-- The error dictionary `{"sales_whys": {}, "business_context": {}, "meddic": {},
"error": m}`. -/
def analysisFailure (m : List Char) : JValue :=
  .obj [(swK, .obj []), (bcK, .obj []), (meddicK, .obj []), (errK, .str m)]

/-- `SalesAnalysisLLM.create_analysis` of `llm_client.py` (the
sales_whys / business_context / meddic variant). -/
def create_analysis (oracle : LLMOutcome) (evidence_registry : JValue) : JValue :=
  match oracle with
  | .exn m => analysisFailure (analysisFailedMsgOf m)
  | .ok text =>
    match jsonParse (clean_json_response text) with
    | none => analysisFailure tryAgainMsg
    | some data =>
      match orderFramework data swK salesWhysDims with
      | .error _ => analysisFailure (analysisFailedMsgOf typeErrText)
      | .ok d1 =>
        match orderFramework d1 bcK businessContextDims with
        | .error _ => analysisFailure (analysisFailedMsgOf typeErrText)
        | .ok d2 => d2

/-- The error dictionary `{"deal_review": {}, "error": m}`. -/
def dealFailure (m : List Char) : JValue := .obj [(dealK, .obj []), (errK, .str m)]

/-- `SalesAnalysisLLM.create_deal_review` of `llm_client.py`: one model call,
parse the cleaned response, no validation of the parsed value. -/
def create_deal_review (oracle : LLMOutcome) (evidence_registry analysis_data : JValue) :
    JValue :=
  match oracle with
  | .exn m => dealFailure (dealFailedMsgOf m)
  | .ok text =>
    match jsonParse (clean_json_response text) with
    | some v => v
    | none => dealFailure dealTryAgainMsg

/-- One yielded progress dictionary of the streaming generator; keys absent from
the yielded dict are `none`. -/
structure StreamEvent where
  stage : List Char
  status : Option (List Char) := none
  data : Option JValue := none
  error : Option JValue := none
  complete : Bool

def evStage : List Char := ("evidence").data
def anStage : List Char := ("analysis").data
def errStage : List Char := ("error").data
def startedS : List Char := ("started").data
def completeS : List Char := ("complete").data

def errEvent (v : JValue) : StreamEvent :=
  { stage := errStage, error := some v, complete := true }

/-- `SalesAnalysisLLM.create_analysis_streamed` of `llm_client.py`: the full
sequence of dictionaries the generator yields.  The two oracles are the
outcomes of the evidence-stage and analysis-stage model calls; the generator's
own `except` branch (reachable only through `in` / `[...]` on non-dict stage
results) yields a terminal error event. -/
def create_analysis_streamed (oracleEv oracleAn : LLMOutcome) (transcript : List Char) :
    List StreamEvent :=
  if 50000 < transcript.length then [errEvent (.str tooLongMsg)]
  else if (pyStrip transcript).length < 50 then [errEvent (.str tooShortMsg)]
  else
    let e1 : StreamEvent := { stage := evStage, status := some startedS, complete := false }
    let evR := (create_evidence_registry oracleEv transcript).1
    match pyContains evR errK with
    | .error _ => [e1, errEvent (.str typeErrText)]
    | .ok true =>
      match pyGetItem evR errK with
      | .error _ => [e1, errEvent (.str typeErrText)]
      | .ok m => [e1, errEvent m]
    | .ok false =>
      let e2 : StreamEvent :=
        { stage := evStage, data := some evR, status := some completeS, complete := false }
      let e3 : StreamEvent := { stage := anStage, status := some startedS, complete := false }
      let anR := create_analysis oracleAn evR
      match pyContains anR errK with
      | .error _ => [e1, e2, e3, errEvent (.str typeErrText)]
      | .ok true =>
        match pyGetItem anR errK with
        | .error _ => [e1, e2, e3, errEvent (.str typeErrText)]
        | .ok m => [e1, e2, e3, errEvent m]
      | .ok false =>
        let e4 : StreamEvent :=
          { stage := anStage, data := some anR, status := some completeS, complete := true }
        [e1, e2, e3, e4]

/-- Every event whose stage is "error" is the last event of the sequence and
carries `complete = true`. -/
def errorsAreTerminal : List StreamEvent → Bool
  | [] => true
  | e :: rest =>
    if e.stage = errStage then
      if rest.isEmpty then e.complete else false
    else errorsAreTerminal rest

/-- An uploaded file as `validate_file` sees it: its filename and the byte size
obtained by seek/tell. -/
structure UploadFile where
  filename : List Char
  size : Nat

def allowedExts : List (List Char) := [("txt").data, ("docx").data]

def maxFileSize : Nat := 5 * 1024 * 1024

def noFileMsg : List Char := ("No file selected").data
def noExtMsg : List Char := ("File must have an extension").data
def badTypeMsg (ext : List Char) : List Char :=
  ("File type .").data ++ ext ++ (" not allowed. Only .txt and .docx files are supported").data
def tooLargeMsg : List Char := ("File too large. Maximum size is 5MB").data
def emptyFileMsg : List Char := ("File is empty").data
def validFileMsg : List Char := ("File is valid").data

/-- `filename.rsplit('.', 1)[1].lower()`: the part after the last dot,
lowercased (ASCII, as in all the concrete cases below). -/
def extOf (filename : List Char) : List Char :=
  ((filename.reverse.takeWhile (fun c => if c = '.' then false else true)).reverse).map
    Char.toLower

/-- `FileProcessor.validate_file` of `file_processor.py` (identical logic in
`app.py`): extension allow-list, 5MB size cap, non-empty. -/
def validate_file (f : UploadFile) : Bool × List Char :=
  if f.filename = [] then (false, noFileMsg)
  else if hasChar f.filename '.' = false then (false, noExtMsg)
  else if memList (extOf f.filename) allowedExts = false then
    (false, badTypeMsg (extOf f.filename))
  else if maxFileSize < f.size then (false, tooLargeMsg)
  else if f.size = 0 then (false, emptyFileMsg)
  else (true, validFileMsg)

def moreDiscovery : List Char := ("More Discovery Needed").data
def readyForDemo : List Char := ("Ready for Demo").data

def mockConfidenceNote : List Char :=
  ("While there\x27s clear pain and budget, we\x27re missing key MEDDIC elements like confirmed decision process, timeline, and champion strength. Need more discovery before demo.").data

def mockGap1 : List Char :=
  ("No clear timeline for decision - only \x27end of Q1\x27 mentioned, need specific date and milestones").data
def mockGap2 : List Char :=
  ("Champion relationship unclear - need to validate Head of Sales has real influence and will advocate during decision").data
def mockGap3 : List Char :=
  ("Competition unknown - are other vendors being evaluated? What\x27s our differentiation?").data

def mockObj1 : List Char :=
  ("What is the exact decision date and what are the milestones leading up to it?").data
def mockObj2 : List Char :=
  ("Who else is being evaluated and what criteria will be used to choose between vendors?").data
def mockObj3 : List Char :=
  ("Can you walk me through the decision process step-by-step? Who has final say?").data
def mockObj4 : List Char :=
  ("What happens if you don\x27t solve this by Q2? What\x27s the business impact?").data
def mockObj5 : List Char :=
  ("Would the Head of Sales be willing to introduce us to the CFO for a technical discussion?").data

/-- The fixed `deal_review` dictionary returned by the mock client. -/
def mockReviewBody : JValue :=
  .obj
    [ (("stage_readiness").data, .str moreDiscovery),
      (("confidence_note").data, .str mockConfidenceNote),
      (("critical_gaps").data, .arr [.str mockGap1, .str mockGap2, .str mockGap3]),
      (("next_call_objectives").data,
        .arr [.str mockObj1, .str mockObj2, .str mockObj3, .str mockObj4, .str mockObj5]) ]

/-- `SalesAnalysisLLM.create_deal_review` of `llm_client_mock.py`: a fixed
review, independent of its inputs. -/
def mock_create_deal_review (evidence_registry analysis_data : JValue) : JValue :=
  .obj [(dealK, mockReviewBody)]

/-- Keys of the named framework block of an analysis result. -/
def frameworkKeys (r : JValue) (key : List Char) : List (List Char) :=
  match r.lookup key with
  | some w => JValue.keyList w
  | none => []

/-- A 60-character transcript that passes both length checks. -/
def transcript60 : List Char := List.replicate 60 'a'

/-- A model response that is a bare JSON string, not an object. -/
def bareStringResp : List Char := ("\"hello\"").data

/-- A parseable model response without an `evidence_registry` key. -/
def noRegResp : List Char := ("\x7b\"x\":1\x7d").data

/-- A model response that is not JSON at all. -/
def badResp : List Char := ("no json here").data

/-- A well-formed evidence-stage model response. -/
def okEvidenceResp : List Char := ("\x7b\"evidence_registry\":\x7b\x7d\x7d").data

/-- A well-formed analysis-stage model response without error key. -/
def okAnalysisResp : List Char := ("\x7b\"meddic\":\x7b\x7d\x7d").data

/-- Analysis response with shuffled / missing dimensions. -/
def mixedOrderResp : List Char :=
  ("\x7b\"sales_whys\":\x7b\"why_us\":\x7b\x7d\x7d,\"business_context\":\x7b\x7d,\"meddic\":\x7b\x7d\x7d").data

/-- Analysis response whose only framework block is an unordered meddic block. -/
def meddicOnlyResp : List Char :=
  ("\x7b\"meddic\":\x7b\"champion\":\x7b\x7d,\"metrics\":\x7b\x7d\x7d\x7d").data

/-- Valid JSON whose string value contains a comma directly before a brace. -/
def strCommaObj : List Char := ("\x7b\"a\":\",\x7d\"\x7d").data

/-- A fenced json block whose content is an array, not an object. -/
def fencedArrayText : List Char := ("```json\n[1,2]\n```").data

/-- A deal-review response that is an empty review object. -/
def dealResp : List Char := ("\x7b\"deal_review\":\x7b\x7d\x7d").data

/-- A parseable deal-review response violating the rubric shape. -/
def badDealResp : List Char :=
  ("\x7b\"deal_review\":\x7b\"stage_readiness\":\"Undetermined\",\"critical_gaps\":[]\x7d\x7d").data

def pdfFile : UploadFile := { filename := ("report.pdf").data, size := 100 }
def bigTxtFile : UploadFile := { filename := ("call.txt").data, size := 6 * 1024 * 1024 }
def emptyTxtFile : UploadFile := { filename := ("call.txt").data, size := 0 }
def goodTxtFile : UploadFile := { filename := ("call.txt").data, size := 1000 }

/-- C3: a transcript longer than 50,000 characters, or shorter than 50 characters
after trimming, makes `create_evidence_registry` return the error result with an
empty evidence registry, and the model is never called. -/
theorem evidence_rejects_invalid_length (oracle : LLMOutcome) (t : List Char)
    (h : 50000 < t.length ∨ (pyStrip t).length < 50) :
    (∃ m, (create_evidence_registry oracle t).1 =
      .obj [(evRegK, .obj []), (errK, .str m)]) ∧
    (create_evidence_registry oracle t).2 = false := by
  by_cases h1 : 50000 < t.length
  · exact ⟨⟨tooLongMsg, by simp [create_evidence_registry, h1, evFailure]⟩,
      by simp [create_evidence_registry, h1]⟩
  · have h2 : (pyStrip t).length < 50 := h.resolve_left h1
    exact ⟨⟨tooShortMsg, by simp [create_evidence_registry, h1, h2, evFailure]⟩,
      by simp [create_evidence_registry, h1, h2]⟩

/-- Witness for C3 at the empty transcript. -/
theorem evidence_rejects_invalid_length_witness :
    (∃ m, (create_evidence_registry (.ok []) []).1 =
      .obj [(evRegK, .obj []), (errK, .str m)]) ∧
    (create_evidence_registry (.ok []) []).2 = false :=
  evidence_rejects_invalid_length (.ok []) [] (Or.inr (by decide))

/-- C10: when the cleaned model response parses as JSON and the transcript is
valid, `create_evidence_registry` returns exactly the parsed value, whatever its
shape: no key or schema of the result is checked. -/
theorem evidence_returns_parsed_json (t text : List Char) (v : JValue)
    (h1 : t.length ≤ 50000) (h2 : 50 ≤ (pyStrip t).length)
    (hp : jsonParse (clean_json_response text) = some v) :
    create_evidence_registry (.ok text) t = (v, true) := by
  have h1' : ¬ 50000 < t.length := by omega
  have h2' : ¬ (pyStrip t).length < 50 := by omega
  simp [create_evidence_registry, h1', h2', hp]

/-- Witness for C10: a parsed response without any `evidence_registry` key is
returned untouched. -/
theorem evidence_returns_parsed_json_witness :
    create_evidence_registry (.ok noRegResp) transcript60 =
      (.obj [((("x").data), .num ['1'])], true) ∧
    containsKey [((("x").data), JValue.num ['1'])] evRegK = false :=
  ⟨evidence_returns_parsed_json transcript60 noRegResp _ (by decide) (by decide) (by rfl),
   by rfl⟩

/-- C9: a transcript that fails length validation makes the streaming generator
yield exactly one terminal error event (stage "error", complete = true), with no
"started" event before it. -/
theorem streamed_rejects_invalid_transcript (oEv oAn : LLMOutcome) (t : List Char)
    (h : 50000 < t.length ∨ (pyStrip t).length < 50) :
    ∃ m, create_analysis_streamed oEv oAn t =
      [{ stage := errStage, error := some (.str m), complete := true }] := by
  by_cases h1 : 50000 < t.length
  · exact ⟨tooLongMsg, by simp [create_analysis_streamed, h1, errEvent]⟩
  · exact ⟨tooShortMsg,
      by simp [create_analysis_streamed, h1, h.resolve_left h1, errEvent]⟩

/-- Witness for C9 at the empty transcript. -/
theorem streamed_rejects_invalid_transcript_witness :
    ∃ m, create_analysis_streamed (.ok []) (.ok []) [] =
      [{ stage := errStage, error := some (.str m), complete := true }] :=
  streamed_rejects_invalid_transcript (.ok []) (.ok []) [] (Or.inr (by decide))

theorem hasChar_ne_nil (l : List Char) (c : Char) (h : hasChar l c = true) : ¬ l = [] := by
  intro hnil
  rw [hnil] at h
  simp [hasChar] at h

/-- C7: `validate_file` rejects a disallowed extension with the file-type
message, an oversized file with the too-large message, an empty file with the
empty message; any oversized or empty file is rejected; and a non-empty file of
allowed extension within the cap is accepted with the valid message. -/
theorem validate_file_spec (f : UploadFile) :
    (hasChar f.filename '.' = true → memList (extOf f.filename) allowedExts = false →
      validate_file f = (false, badTypeMsg (extOf f.filename))) ∧
    (hasChar f.filename '.' = true → memList (extOf f.filename) allowedExts = true →
      maxFileSize < f.size → validate_file f = (false, tooLargeMsg)) ∧
    (hasChar f.filename '.' = true → memList (extOf f.filename) allowedExts = true →
      f.size = 0 → validate_file f = (false, emptyFileMsg)) ∧
    (hasChar f.filename '.' = true → memList (extOf f.filename) allowedExts = true →
      f.size ≤ maxFileSize → f.size ≠ 0 → validate_file f = (true, validFileMsg)) ∧
    (maxFileSize < f.size → (validate_file f).1 = false) ∧
    (f.size = 0 → (validate_file f).1 = false) := by
  refine ⟨fun hd hm => ?_, fun hd hm hs => ?_, fun hd hm hs => ?_,
    fun hd hm hs hnz => ?_, fun hs => ?_, fun hs => ?_⟩
  · simp [validate_file, hasChar_ne_nil _ _ hd, hd, hm]
  · simp [validate_file, hasChar_ne_nil _ _ hd, hd, hm, hs]
  · have hlt : ¬ maxFileSize < f.size := by rw [hs]; decide
    simp [validate_file, hasChar_ne_nil _ _ hd, hd, hm, hs, hlt]
  · have hlt : ¬ maxFileSize < f.size := by omega
    simp [validate_file, hasChar_ne_nil _ _ hd, hd, hm, hlt, hnz]
  · by_cases h0 : f.filename = []
    · simp [validate_file, h0]
    · by_cases hdot : hasChar f.filename '.' = false
      · simp [validate_file, h0, hdot]
      · by_cases hext : memList (extOf f.filename) allowedExts = false
        · simp [validate_file, h0, hdot, hext]
        · simp [validate_file, h0, hdot, hext, hs]
  · by_cases h0 : f.filename = []
    · simp [validate_file, h0]
    · by_cases hdot : hasChar f.filename '.' = false
      · simp [validate_file, h0, hdot]
      · by_cases hext : memList (extOf f.filename) allowedExts = false
        · simp [validate_file, h0, hdot, hext]
        · have hlt : ¬ maxFileSize < f.size := by rw [hs]; decide
          simp [validate_file, h0, hdot, hext, hs, hlt]

/-- Witness for C7: a .pdf upload, a 6MB .txt, an empty .txt, and a good .txt. -/
theorem validate_file_spec_witness :
    validate_file pdfFile = (false, badTypeMsg (extOf pdfFile.filename)) ∧
    validate_file bigTxtFile = (false, tooLargeMsg) ∧
    validate_file emptyTxtFile = (false, emptyFileMsg) ∧
    validate_file goodTxtFile = (true, validFileMsg) :=
  ⟨(validate_file_spec pdfFile).1 (by decide) (by decide),
   (validate_file_spec bigTxtFile).2.1 (by decide) (by decide) (by decide),
   (validate_file_spec emptyTxtFile).2.2.1 (by decide) (by decide) (by decide),
   (validate_file_spec goodTxtFile).2.2.2.1 (by decide) (by decide) (by decide) (by decide)⟩

/-- C6 (amended): each of the three operations either returns its structured
failure dictionary (for some message) or the value the model response parsed
to (transformed only by the ordering step for `create_analysis`); the failure
dictionaries carry the `error` key next to the empty default payload keys. -/
theorem ops_never_raise (oracle : LLMOutcome) (t : List Char) (ev an : JValue) :
    ((∃ m, (create_evidence_registry oracle t).1 = evFailure m) ∨
      (∃ text v, oracle = .ok text ∧ jsonParse (clean_json_response text) = some v ∧
        (create_evidence_registry oracle t).1 = v)) ∧
    ((∃ m, create_analysis oracle ev = analysisFailure m) ∨
      (∃ text d0 d1 d2, oracle = .ok text ∧
        jsonParse (clean_json_response text) = some d0 ∧
        orderFramework d0 swK salesWhysDims = .ok d1 ∧
        orderFramework d1 bcK businessContextDims = .ok d2 ∧
        create_analysis oracle ev = d2)) ∧
    ((∃ m, create_deal_review oracle ev an = dealFailure m) ∨
      (∃ text v, oracle = .ok text ∧ jsonParse (clean_json_response text) = some v ∧
        create_deal_review oracle ev an = v)) ∧
    (∀ m, (evFailure m).lookup errK = some (.str m) ∧
      (evFailure m).lookup evRegK = some (.obj []) ∧
      (analysisFailure m).lookup errK = some (.str m) ∧
      (analysisFailure m).lookup swK = some (.obj []) ∧
      (analysisFailure m).lookup bcK = some (.obj []) ∧
      (analysisFailure m).lookup meddicK = some (.obj []) ∧
      (dealFailure m).lookup errK = some (.str m) ∧
      (dealFailure m).lookup dealK = some (.obj [])) := by
  refine ⟨?_, ?_, ?_, ?_⟩
  · by_cases h1 : 50000 < t.length
    · exact Or.inl ⟨tooLongMsg, by simp [create_evidence_registry, h1]⟩
    · by_cases h2 : (pyStrip t).length < 50
      · exact Or.inl ⟨tooShortMsg, by simp [create_evidence_registry, h1, h2]⟩
      · cases oracle with
        | exn m =>
          exact Or.inl ⟨analysisFailedMsgOf m, by simp [create_evidence_registry, h1, h2]⟩
        | ok text =>
          cases hp : jsonParse (clean_json_response text) with
          | none =>
            exact Or.inl ⟨tryAgainMsg, by simp [create_evidence_registry, h1, h2, hp]⟩
          | some v =>
            exact Or.inr ⟨text, v, rfl, hp,
              by simp [create_evidence_registry, h1, h2, hp]⟩
  · cases oracle with
    | exn m => exact Or.inl ⟨analysisFailedMsgOf m, rfl⟩
    | ok text =>
      cases hp : jsonParse (clean_json_response text) with
      | none => exact Or.inl ⟨tryAgainMsg, by simp [create_analysis, hp]⟩
      | some d0 =>
        cases hsw : orderFramework d0 swK salesWhysDims with
        | error e =>
          exact Or.inl ⟨analysisFailedMsgOf typeErrText,
            by simp [create_analysis, hp, hsw]⟩
        | ok d1 =>
          cases hbc : orderFramework d1 bcK businessContextDims with
          | error e =>
            exact Or.inl ⟨analysisFailedMsgOf typeErrText,
              by simp [create_analysis, hp, hsw, hbc]⟩
          | ok d2 =>
            exact Or.inr ⟨text, d0, d1, d2, rfl, hp, hsw, hbc,
              by simp [create_analysis, hp, hsw, hbc]⟩
  · cases oracle with
    | exn m => exact Or.inl ⟨dealFailedMsgOf m, rfl⟩
    | ok text =>
      cases hp : jsonParse (clean_json_response text) with
      | none => exact Or.inl ⟨dealTryAgainMsg, by simp [create_deal_review, hp]⟩
      | some v => exact Or.inr ⟨text, v, rfl, hp, by simp [create_deal_review, hp]⟩
  · intro m
    exact ⟨rfl, rfl, rfl, rfl, rfl, rfl, rfl, rfl⟩

/-- Counterexample for C6 as stated: a bare JSON string response makes
`create_evidence_registry` return a string, not a dictionary. -/
theorem evidence_success_not_dict :
    (create_evidence_registry (.ok bareStringResp) transcript60).1 =
      .str (("hello").data) ∧
    JValue.isObjB ((create_evidence_registry (.ok bareStringResp) transcript60).1) =
      false :=
  ⟨rfl, rfl⟩

theorem lookupKey_insertPy_self (fs : List (List Char × JValue)) (key : List Char)
    (v : JValue) : lookupKey (insertPy fs key v) key = some v := by
  induction fs with
  | nil => simp [insertPy, lookupKey]
  | cons p rest ih =>
    obtain ⟨k, w⟩ := p
    by_cases h : k = key
    · simp [insertPy, lookupKey, h]
    · simp [insertPy, lookupKey, h, ih]

theorem lookupKey_insertPy_ne (fs : List (List Char × JValue)) (key key' : List Char)
    (v : JValue) (h : key' ≠ key) :
    lookupKey (insertPy fs key v) key' = lookupKey fs key' := by
  induction fs with
  | nil => simp [insertPy, lookupKey, Ne.symm h]
  | cons p rest ih =>
    obtain ⟨k, w⟩ := p
    by_cases hk : k = key
    · subst hk
      simp [insertPy, lookupKey, Ne.symm h]
    · simp [insertPy, lookupKey, hk, ih]

theorem containsKey_of_lookupKey (fs : List (List Char × JValue)) (key : List Char)
    (v : JValue) (h : lookupKey fs key = some v) : containsKey fs key = true := by
  induction fs with
  | nil => simp [lookupKey] at h
  | cons p rest ih =>
    obtain ⟨k, w⟩ := p
    by_cases hk : k = key
    · simp [containsKey, hk]
    · simp only [lookupKey, if_neg hk] at h
      simp [containsKey, hk, ih h]

theorem getDims_obj (inner : List (List Char × JValue)) (ds : List (List Char)) :
    getDims (.obj inner) ds =
      .ok (ds.map (fun d => (d, (lookupKey inner d).getD (.obj [])))) := by
  induction ds with
  | nil => rfl
  | cons d rest ih => simp [getDims, pyGet, ih]

theorem orderFramework_present (fs inner : List (List Char × JValue)) (key : List Char)
    (dims : List (List Char)) (h : lookupKey fs key = some (.obj inner)) :
    orderFramework (.obj fs) key dims =
      .ok (.obj (insertPy fs key
        (.obj (dims.map (fun d => (d, (lookupKey inner d).getD (.obj []))))))) := by
  simp [orderFramework, pyContains, containsKey_of_lookupKey fs key _ h, pyGetItem, h,
    getDims_obj, pySetItem]

/-- C2 (amended): when the parsed analysis response carries `sales_whys` and
`business_context` blocks that are objects, the returned structure lists their
dimensions in the fixed canonical order with absent dimensions defaulted to
empty entries, while the `meddic` block is passed through exactly as parsed. -/
theorem analysis_frameworks_canonical (text : List Char) (ev : JValue)
    (fs sw bc : List (List Char × JValue))
    (hp : jsonParse (clean_json_response text) = some (.obj fs))
    (hsw : lookupKey fs swK = some (.obj sw))
    (hbc : lookupKey fs bcK = some (.obj bc)) :
    (create_analysis (.ok text) ev).lookup swK =
      some (.obj (salesWhysDims.map (fun d => (d, (lookupKey sw d).getD (.obj []))))) ∧
    (create_analysis (.ok text) ev).lookup bcK =
      some (.obj (businessContextDims.map
        (fun d => (d, (lookupKey bc d).getD (.obj []))))) ∧
    (create_analysis (.ok text) ev).lookup meddicK = lookupKey fs meddicK ∧
    frameworkKeys (create_analysis (.ok text) ev) swK = salesWhysDims ∧
    frameworkKeys (create_analysis (.ok text) ev) bcK = businessContextDims := by
  have hne1 : bcK ≠ swK := by decide
  have hne2 : swK ≠ bcK := by decide
  have hne3 : meddicK ≠ swK := by decide
  have hne4 : meddicK ≠ bcK := by decide
  have h1 := orderFramework_present fs sw swK salesWhysDims hsw
  have hbc1 : lookupKey (insertPy fs swK
      (.obj (salesWhysDims.map (fun d => (d, (lookupKey sw d).getD (.obj [])))))) bcK =
      some (.obj bc) := by
    rw [lookupKey_insertPy_ne _ _ _ _ hne1]
    exact hbc
  have h2 := orderFramework_present _ bc bcK businessContextDims hbc1
  have hres : create_analysis (.ok text) ev =
      .obj (insertPy (insertPy fs swK
        (.obj (salesWhysDims.map (fun d => (d, (lookupKey sw d).getD (.obj []))))))
        bcK
        (.obj (businessContextDims.map
          (fun d => (d, (lookupKey bc d).getD (.obj [])))))) := by
    simp [create_analysis, hp, h1, h2]
  rw [hres]
  have hlsw : lookupKey (insertPy (insertPy fs swK
      (.obj (salesWhysDims.map (fun d => (d, (lookupKey sw d).getD (.obj []))))))
      bcK
      (.obj (businessContextDims.map
        (fun d => (d, (lookupKey bc d).getD (.obj [])))))) swK =
      some (.obj (salesWhysDims.map (fun d => (d, (lookupKey sw d).getD (.obj []))))) := by
    rw [lookupKey_insertPy_ne _ _ _ _ hne2]
    exact lookupKey_insertPy_self _ _ _
  have hlbc : lookupKey (insertPy (insertPy fs swK
      (.obj (salesWhysDims.map (fun d => (d, (lookupKey sw d).getD (.obj []))))))
      bcK
      (.obj (businessContextDims.map
        (fun d => (d, (lookupKey bc d).getD (.obj [])))))) bcK =
      some (.obj (businessContextDims.map
        (fun d => (d, (lookupKey bc d).getD (.obj []))))) :=
    lookupKey_insertPy_self _ _ _
  refine ⟨?_, ?_, ?_, ?_, ?_⟩
  · simpa [JValue.lookup] using hlsw
  · simpa [JValue.lookup] using hlbc
  · simp [JValue.lookup]
    rw [lookupKey_insertPy_ne _ _ _ _ hne4, lookupKey_insertPy_ne _ _ _ _ hne3]
  · simp [frameworkKeys, JValue.lookup, hlsw, JValue.keyList, Function.comp_def]
  · simp [frameworkKeys, JValue.lookup, hlbc, JValue.keyList, Function.comp_def]

/-- Witness for C2 (amended): the shuffled response comes back with canonical
sales_whys order and absent dimensions defaulted. -/
theorem analysis_frameworks_canonical_witness :
    (create_analysis (.ok mixedOrderResp) (.obj [])).lookup swK =
      some (.obj [((("why_anything").data), .obj []), ((("why_now").data), .obj []),
        ((("why_us").data), .obj [])]) ∧
    frameworkKeys (create_analysis (.ok mixedOrderResp) (.obj [])) swK =
      salesWhysDims := by
  have h := analysis_frameworks_canonical mixedOrderResp (.obj [])
    [(swK, JValue.obj [((("why_us").data), JValue.obj [])]),
     (bcK, JValue.obj []), (meddicK, JValue.obj [])]
    [((("why_us").data), JValue.obj [])] []
    (by rfl) (by rfl) (by rfl)
  exact ⟨h.1, h.2.2.2.1⟩

/-- Counterexample for C2 as stated: a meddic block arrives out of canonical
order and with absent dimensions missing, and is returned exactly that way. -/
theorem meddic_block_not_reordered :
    frameworkKeys (create_analysis (.ok meddicOnlyResp) (.obj [])) meddicK =
      [(("champion").data), (("metrics").data)] ∧
    [(("champion").data), (("metrics").data)] ≠ meddicDims :=
  ⟨rfl, by decide⟩

/-- C1: for a transcript passing length validation, a run where both stages
succeed yields exactly evidence-started, evidence-complete (with the evidence
data), analysis-started, analysis-complete (with the analysis data and
complete = true); a run whose evidence stage carries an error yields exactly
evidence-started followed by one terminal error event; and in every run, an
event with stage "error" is the last event and has complete = true. -/
theorem streamed_event_sequence (oEv oAn : LLMOutcome) (t : List Char)
    (h1 : t.length ≤ 50000) (h2 : 50 ≤ (pyStrip t).length) :
    (pyContains ((create_evidence_registry oEv t).1) errK = .ok false →
      pyContains (create_analysis oAn ((create_evidence_registry oEv t).1)) errK =
        .ok false →
      create_analysis_streamed oEv oAn t =
        [ { stage := evStage, status := some startedS, complete := false },
          { stage := evStage, status := some completeS,
            data := some ((create_evidence_registry oEv t).1), complete := false },
          { stage := anStage, status := some startedS, complete := false },
          { stage := anStage, status := some completeS,
            data := some (create_analysis oAn ((create_evidence_registry oEv t).1)),
            complete := true } ]) ∧
    (∀ m, pyContains ((create_evidence_registry oEv t).1) errK = .ok true →
      pyGetItem ((create_evidence_registry oEv t).1) errK = .ok m →
      create_analysis_streamed oEv oAn t =
        [ { stage := evStage, status := some startedS, complete := false },
          { stage := errStage, error := some m, complete := true } ]) ∧
    errorsAreTerminal (create_analysis_streamed oEv oAn t) = true := by
  have h1' : ¬ 50000 < t.length := by omega
  have h2' : ¬ (pyStrip t).length < 50 := by omega
  have hne1 : ¬ evStage = errStage := by decide
  have hne2 : ¬ anStage = errStage := by decide
  refine ⟨?_, ?_, ?_⟩
  · intro hev han
    simp [create_analysis_streamed, h1', h2', hev, han]
  · intro m hev hget
    simp [create_analysis_streamed, h1', h2', hev, hget, errEvent]
  · cases hc : pyContains ((create_evidence_registry oEv t).1) errK with
    | error e =>
      simp [create_analysis_streamed, h1', h2', hc, errorsAreTerminal, errEvent, hne1]
    | ok b =>
      cases b with
      | true =>
        cases hg : pyGetItem ((create_evidence_registry oEv t).1) errK with
        | error e =>
          simp [create_analysis_streamed, h1', h2', hc, hg, errorsAreTerminal,
            errEvent, hne1]
        | ok m =>
          simp [create_analysis_streamed, h1', h2', hc, hg, errorsAreTerminal,
            errEvent, hne1]
      | false =>
        cases ha : pyContains (create_analysis oAn ((create_evidence_registry oEv t).1))
            errK with
        | error e =>
          simp [create_analysis_streamed, h1', h2', hc, ha, errorsAreTerminal,
            errEvent, hne1, hne2]
        | ok b2 =>
          cases b2 with
          | true =>
            cases hg : pyGetItem
                (create_analysis oAn ((create_evidence_registry oEv t).1)) errK with
            | error e =>
              simp [create_analysis_streamed, h1', h2', hc, ha, hg,
                errorsAreTerminal, errEvent, hne1, hne2]
            | ok m =>
              simp [create_analysis_streamed, h1', h2', hc, ha, hg,
                errorsAreTerminal, errEvent, hne1, hne2]
          | false =>
            simp [create_analysis_streamed, h1', h2', hc, ha, errorsAreTerminal,
              errEvent, hne1, hne2]

/-- Witness for C1: a successful run and a failing-evidence run at concrete
oracles and a concrete 60-character transcript. -/
theorem streamed_event_sequence_witness :
    (create_analysis_streamed (.ok okEvidenceResp) (.ok okAnalysisResp) transcript60 =
      [ { stage := evStage, status := some startedS, complete := false },
        { stage := evStage, status := some completeS,
          data := some ((create_evidence_registry (.ok okEvidenceResp) transcript60).1),
          complete := false },
        { stage := anStage, status := some startedS, complete := false },
        { stage := anStage, status := some completeS,
          data := some (create_analysis (.ok okAnalysisResp)
            ((create_evidence_registry (.ok okEvidenceResp) transcript60).1)),
          complete := true } ]) ∧
    (create_analysis_streamed (.ok badResp) (.ok okAnalysisResp) transcript60 =
      [ { stage := evStage, status := some startedS, complete := false },
        { stage := errStage, error := some (.str tryAgainMsg), complete := true } ]) :=
  ⟨(streamed_event_sequence (.ok okEvidenceResp) (.ok okAnalysisResp) transcript60
      (by decide) (by decide)).1 rfl rfl,
   (streamed_event_sequence (.ok badResp) (.ok okAnalysisResp) transcript60
      (by decide) (by decide)).2.1 (.str tryAgainMsg) rfl rfl⟩

/-- Is the backtick absent from the list? -/
def noTick : List Char → Bool
  | [] => true
  | c :: rest => if c = tick then false else noTick rest

theorem isPre_self_append (p r : List Char) : isPre p (p ++ r) = true := by
  induction p with
  | nil => rfl
  | cons a as ih => simp [isPre, ih]

theorem fenceAttempt_cons_ne (c : Char) (l : List Char) (h : ¬ c = tick) :
    fenceAttempt (c :: l) = none := by
  have hpre : isPre fenceMark (c :: l) = false := by
    simp [fenceMark, isPre, Ne.symm h]
  simp [fenceAttempt, hpre]

theorem fenceSearch_none_of_noTick (l : List Char) (h : noTick l = true) :
    fenceSearch l = none := by
  induction l with
  | nil => rfl
  | cons c rest ih =>
    have hc : ¬ c = tick := by
      by_contra hh
      simp [noTick, hh] at h
    have hr : noTick rest = true := by simpa [noTick, hc] using h
    simp [fenceSearch, fenceAttempt_cons_ne c rest hc, ih hr]

theorem fenceSearch_append_of_noTick (pre rest : List Char) (h : noTick pre = true) :
    fenceSearch (pre ++ rest) = fenceSearch rest := by
  induction pre with
  | nil => rfl
  | cons c p ih =>
    have hc : ¬ c = tick := by
      by_contra hh
      simp [noTick, hh] at h
    have hp : noTick p = true := by simpa [noTick, hc] using h
    simp [fenceSearch, fenceAttempt_cons_ne c (p ++ rest) hc, ih hp]

theorem dropWhile_space_append (ws l : List Char) (h : ws.all isSpaceRe = true) :
    (ws ++ l).dropWhile isSpaceRe = l.dropWhile isSpaceRe := by
  induction ws with
  | nil => rfl
  | cons c rest ih =>
    simp only [List.all_cons, Bool.and_eq_true] at h
    simp [List.dropWhile_cons, h.1, ih h.2]

theorem dropWhile_space_nonspace (c : Char) (l : List Char) (h : isSpaceRe c = false) :
    (c :: l).dropWhile isSpaceRe = c :: l := by
  simp [List.dropWhile_cons, h]

theorem noTick_dropWhile_space (l : List Char) (h : noTick l = true) :
    noTick (l.dropWhile isSpaceRe) = true := by
  induction l with
  | nil => rfl
  | cons c rest ih =>
    have hc : ¬ c = tick := by
      by_contra hh
      simp [noTick, hh] at h
    have hr : noTick rest = true := by simpa [noTick, hc] using h
    by_cases hs : isSpaceRe c
    · simp [List.dropWhile_cons, hs, ih hr]
    · simp only [List.dropWhile_cons, hs, if_neg]
      simp [noTick, hc, hr]

theorem isPre_fence_false_of_noTick (l : List Char) (h : noTick l = true) :
    isPre fenceMark l = false := by
  cases l with
  | nil => rfl
  | cons c rest =>
    have hc : ¬ c = tick := by
      by_contra hh
      simp [noTick, hh] at h
    simp [fenceMark, isPre, Ne.symm hc]

theorem greedyBody_none_of_noTick (l : List Char) (h : noTick l = true) :
    greedyBody l = none := by
  induction l with
  | nil => rfl
  | cons c rest ih =>
    have hc : ¬ c = tick := by
      by_contra hh
      simp [noTick, hh] at h
    have hr : noTick rest = true := by simpa [noTick, hc] using h
    have hpre : isPre fenceMark (rest.dropWhile isSpaceRe) = false :=
      isPre_fence_false_of_noTick _ (noTick_dropWhile_space rest hr)
    simp [greedyBody, ih hr, hpre]

theorem greedyBody_fence_post (post : List Char) (h : noTick post = true) :
    greedyBody (fenceMark ++ post) = none := by
  have h1 : greedyBody post = none := greedyBody_none_of_noTick post h
  have ht : ¬ tick = '}' := by decide
  simp [fenceMark, greedyBody, h1, ht]

theorem greedyBody_ws_fence (ws2 post : List Char) (hw : ws2.all isSpaceRe = true)
    (hp : noTick post = true) :
    greedyBody (ws2 ++ (fenceMark ++ post)) = none := by
  induction ws2 with
  | nil => simpa using greedyBody_fence_post post hp
  | cons c rest ih =>
    simp only [List.all_cons, Bool.and_eq_true] at hw
    have hc : ¬ c = '}' := by
      intro hh
      rw [hh] at hw
      exact absurd hw.1 (by decide)
    simp [greedyBody, ih hw.2, hc]

theorem greedyBody_main (front ws2 post : List Char) (hw : ws2.all isSpaceRe = true)
    (hp : noTick post = true) :
    greedyBody (front ++ '}' :: (ws2 ++ (fenceMark ++ post))) =
      some (front ++ ['}']) := by
  induction front with
  | nil =>
    have h1 : greedyBody (ws2 ++ (fenceMark ++ post)) = none :=
      greedyBody_ws_fence ws2 post hw hp
    have h2 : (ws2 ++ (fenceMark ++ post)).dropWhile isSpaceRe = fenceMark ++ post := by
      rw [dropWhile_space_append ws2 _ hw]
      simp [fenceMark, List.dropWhile_cons, show isSpaceRe tick = false by decide]
    have h3 : isPre fenceMark (fenceMark ++ post) = true := isPre_self_append _ _
    simp [greedyBody, h1, h2, h3]
  | cons c f ih => simp [greedyBody, ih]

theorem fenceAttempt_fenced (ws1 mid ws2 post : List Char)
    (h1 : ws1.all isSpaceRe = true) (h2 : ws2.all isSpaceRe = true)
    (hp : noTick post = true) :
    fenceAttempt (fenceMark ++ (jsonTag ++ (ws1 ++ (('{' :: (mid ++ ['}'])) ++
      (ws2 ++ (fenceMark ++ post)))))) = some ('{' :: (mid ++ ['}'])) := by
  have ha : isPre fenceMark (fenceMark ++ (jsonTag ++ (ws1 ++ (('{' :: (mid ++ ['}'])) ++
      (ws2 ++ (fenceMark ++ post)))))) = true := isPre_self_append _ _
  have hd3 : ∀ Y : List Char, (fenceMark ++ Y).drop 3 = Y := fun Y => by
    simp [fenceMark]
  have hb : isPre jsonTag (jsonTag ++ (ws1 ++ (('{' :: (mid ++ ['}'])) ++
      (ws2 ++ (fenceMark ++ post))))) = true := isPre_self_append _ _
  have hd4 : ∀ Y : List Char, (jsonTag ++ Y).drop 4 = Y := fun Y => by
    simp [jsonTag]
  have hdrop : (ws1 ++ (('{' :: (mid ++ ['}'])) ++ (ws2 ++ (fenceMark ++ post)))).dropWhile
      isSpaceRe = '{' :: ((mid ++ ['}']) ++ (ws2 ++ (fenceMark ++ post))) := by
    rw [dropWhile_space_append ws1 _ h1]
    simp [List.dropWhile_cons, show isSpaceRe '{' = false by decide]
  have hg := greedyBody_main ('{' :: mid) ws2 post h2 hp
  simp only [List.cons_append, List.append_assoc] at hg
  simp only [fenceAttempt, ha, if_true, hd3, hb, if_pos, hd4, hdrop]
  simp only [List.append_assoc] at *
  simpa using hg

theorem removeTrailingCommas_eq_self (l : List Char) (h : hasTrailingComma l = false) :
    removeTrailingCommas l = l := by
  induction l with
  | nil => rfl
  | cons c rest ih =>
    by_cases hc : c = ','
    · subst hc
      cases hcl : closerAfterWs rest with
      | false =>
        have hr : hasTrailingComma rest = false := by
          simpa [hasTrailingComma, hcl] using h
        simp [removeTrailingCommas, hcl, ih hr]
      | true => simp [hasTrailingComma, hcl] at h
    · have hr : hasTrailingComma rest = false := by
        simpa [hasTrailingComma, hc] using h
      simp [removeTrailingCommas, hc, ih hr]

theorem pyStrip_braces (mid : List Char) :
    pyStrip ('{' :: (mid ++ ['}'])) = '{' :: (mid ++ ['}']) := by
  unfold pyStrip
  have hl : ('{' :: (mid ++ ['}'])).dropWhile isSpaceRe = '{' :: (mid ++ ['}']) :=
    dropWhile_space_nonspace _ _ (by decide)
  rw [hl]
  have h2 : ('{' :: (mid ++ ['}'])).reverse = '}' :: (mid.reverse ++ ['{']) := by
    simp
  rw [h2, dropWhile_space_nonspace _ _ (by decide), ← h2, List.reverse_reverse]

/-- C5 (amended): on text containing a fenced ```json block whose content is a
brace-delimited object (backtick-free surroundings), `clean_json_response`
returns exactly that object with every comma directly preceding (up to
whitespace) a closing brace or bracket removed; when the object contains no such
comma it is returned verbatim. -/
theorem clean_json_response_fenced (pre ws1 mid ws2 post : List Char)
    (hpre : noTick pre = true)
    (h1 : ws1.all isSpaceRe = true) (h2 : ws2.all isSpaceRe = true)
    (hp : noTick post = true) :
    clean_json_response (pre ++ (fenceMark ++ (jsonTag ++ (ws1 ++
      (('{' :: (mid ++ ['}'])) ++ (ws2 ++ (fenceMark ++ post))))))) =
      pyStrip (removeTrailingCommas ('{' :: (mid ++ ['}']))) ∧
    (hasTrailingComma ('{' :: (mid ++ ['}'])) = false →
      clean_json_response (pre ++ (fenceMark ++ (jsonTag ++ (ws1 ++
        (('{' :: (mid ++ ['}'])) ++ (ws2 ++ (fenceMark ++ post))))))) =
        '{' :: (mid ++ ['}'])) := by
  have hatt := fenceAttempt_fenced ws1 mid ws2 post h1 h2 hp
  have hstep : ∀ (l g : List Char), fenceAttempt l = some g → fenceSearch l = some g := by
    intro l g h
    cases l with
    | nil => exact absurd h (by simp [fenceAttempt, fenceMark, isPre])
    | cons c rest => simp [fenceSearch, h]
  have hsearch : fenceSearch (pre ++ (fenceMark ++ (jsonTag ++ (ws1 ++
      (('{' :: (mid ++ ['}'])) ++ (ws2 ++ (fenceMark ++ post))))))) =
      some ('{' :: (mid ++ ['}'])) := by
    rw [fenceSearch_append_of_noTick pre _ hpre]
    exact hstep _ _ hatt
  have hmain : clean_json_response (pre ++ (fenceMark ++ (jsonTag ++ (ws1 ++
      (('{' :: (mid ++ ['}'])) ++ (ws2 ++ (fenceMark ++ post))))))) =
      pyStrip (removeTrailingCommas ('{' :: (mid ++ ['}']))) := by
    simp only [clean_json_response]
    rw [hsearch]
  refine ⟨hmain, fun hnc => ?_⟩
  rw [hmain, removeTrailingCommas_eq_self _ hnc, pyStrip_braces]

/-- Witness for C5 (amended): a concrete fenced response is reduced to exactly
its object content. -/
theorem clean_json_response_fenced_witness :
    clean_json_response ((("Sure: ").data) ++ (fenceMark ++ (jsonTag ++
      (([Char.ofNat 10]) ++ (('{' :: ((("\"a\":1").data) ++ ['}'])) ++
      (([Char.ofNat 10]) ++ (fenceMark ++ (("Thanks").data)))))))) =
      '{' :: ((("\"a\":1").data) ++ ['}']) :=
  (clean_json_response_fenced (("Sure: ").data) ([Char.ofNat 10]) (("\"a\":1").data)
    ([Char.ofNat 10]) (("Thanks").data) (by rfl) (by rfl) (by rfl) (by rfl)).2 (by rfl)

/-- Counterexample for C5 as stated: a fenced json block whose content is an
array is not extracted at all — the whole text, fences included, comes back. -/
theorem fenced_array_not_extracted :
    clean_json_response fencedArrayText = fencedArrayText ∧
    isPre fenceMark fencedArrayText = true ∧
    fencedArrayText ≠ (("[1,2]").data) ∧
    fencedArrayText ≠ (("\n[1,2]\n").data) :=
  ⟨rfl, rfl, by decide, by decide⟩

theorem takeToLastRBrace_append_rbrace (l : List Char) :
    takeToLastRBrace (l ++ ['}']) = some (l ++ ['}']) := by
  induction l with
  | nil => rfl
  | cons c rest ih => simp [takeToLastRBrace, ih]

theorem braceSearch_object (mid : List Char) :
    braceSearch ('{' :: (mid ++ ['}'])) = some ('{' :: (mid ++ ['}'])) := by
  have hd : ('{' :: (mid ++ ['}'])).dropWhile notLBrace = '{' :: (mid ++ ['}']) := by
    simp [List.dropWhile_cons, notLBrace]
  simp [braceSearch, hd, takeToLastRBrace_append_rbrace]

/-- C4 (amended): cleaning is a no-op on a valid JSON object literal that starts
with `{`, ends with `}`, contains no backtick and contains no comma directly
preceding (up to whitespace) a closing brace or bracket. -/
theorem clean_json_response_noop (mid : List Char)
    (hvalid : jsonValid ('{' :: (mid ++ ['}'])) = true)
    (htick : noTick ('{' :: (mid ++ ['}'])) = true)
    (hcomma : hasTrailingComma ('{' :: (mid ++ ['}'])) = false) :
    clean_json_response ('{' :: (mid ++ ['}'])) = '{' :: (mid ++ ['}']) := by
  have hf : fenceSearch ('{' :: (mid ++ ['}'])) = none :=
    fenceSearch_none_of_noTick _ htick
  simp [clean_json_response, hf, braceSearch_object,
    removeTrailingCommas_eq_self _ hcomma, pyStrip_braces]

/-- Witness for C4 (amended) at the object `{"a":1}`. -/
theorem clean_json_response_noop_witness :
    clean_json_response ('{' :: ((("\"a\":1").data) ++ ['}'])) =
      '{' :: ((("\"a\":1").data) ++ ['}']) :=
  clean_json_response_noop (("\"a\":1").data) (by rfl) (by rfl) (by rfl)

/-- Counterexample for C4 as stated: the valid JSON object whose string value
contains a comma before a brace is changed by cleaning. -/
theorem clean_changes_valid_json :
    jsonValid strCommaObj = true ∧ clean_json_response strCommaObj ≠ strCommaObj :=
  ⟨rfl, by decide⟩

/-- C8 (amended): `create_deal_review` returns the model's parsed response with
no validation — the rubric lives only in the prompt text — while the mock
client's `create_deal_review` always returns its fixed review, whose
`critical_gaps` has three entries and whose `stage_readiness` is
"More Discovery Needed", one of the two rubric values. -/
theorem deal_review_unvalidated (ev an : JValue) (text : List Char) (v : JValue)
    (hp : jsonParse (clean_json_response text) = some v) :
    create_deal_review (.ok text) ev an = v ∧
    mock_create_deal_review ev an = .obj [(dealK, mockReviewBody)] ∧
    (mockReviewBody.lookup (("critical_gaps").data)).map JValue.arrLen = some 3 ∧
    mockReviewBody.lookup (("stage_readiness").data) = some (.str moreDiscovery) ∧
    memList moreDiscovery [moreDiscovery, readyForDemo] = true := by
  refine ⟨by simp [create_deal_review, hp], rfl, rfl, rfl, ?_⟩
  simp [memList]

/-- Witness for C8 (amended) at a concrete parseable response. -/
theorem deal_review_unvalidated_witness :
    create_deal_review (.ok dealResp) (.obj []) (.obj []) = .obj [(dealK, .obj [])] ∧
    mock_create_deal_review (.obj []) (.obj []) = .obj [(dealK, mockReviewBody)] :=
  ⟨(deal_review_unvalidated (.obj []) (.obj []) dealResp (.obj [(dealK, .obj [])])
      (by rfl)).1,
   (deal_review_unvalidated (.obj []) (.obj []) dealResp (.obj [(dealK, .obj [])])
      (by rfl)).2.1⟩

/-- Counterexample for C8 as stated: a parseable response with an empty
`critical_gaps` and a third `stage_readiness` value is returned exactly as is. -/
theorem deal_review_not_rubric_constrained :
    create_deal_review (.ok badDealResp) (.obj []) (.obj []) =
      .obj [(dealK, .obj [((("stage_readiness").data), .str (("Undetermined").data)),
        ((("critical_gaps").data), .arr [])])] ∧
    memList (("Undetermined").data) [moreDiscovery, readyForDemo] = false ∧
    JValue.arrLen (.arr []) = 0 :=
  ⟨rfl, rfl, rfl⟩
